import Mathlib

/-!
# pico-sx1262 sensor node: `src/main.c`

A shallow embedding of the firmware's `main` loop and of
`internal_temperature_get`, together with the facts proved about them.

Conventions.
* The target is the RP2040 (arm-none-eabi): `int`, `long`, `unsigned int` and
  `unsigned long` are 32 bits wide, `int16_t` is 16 bits, `unsigned char` is 8.
  Machine integers are `Int`/`Nat` with the reductions written out.
* Bytes are `Nat` values below 256; a payload is a `List Nat`.
* Calls into the network stack, the sensor driver and the SDK are recorded as
  a trace of `Call` events; what such a call returns is an input of the model.
* Console output (`printf`, `puts`) is diagnostic only and is not recorded.
-/

namespace PicoSx1262

/-! ## C library: `%x` formatting and `strtol` in base 16 -/

/-- Largest value of the target's 32-bit `long`. -/
def LONG_MAX : Int := 2147483647

/-- Smallest value of the target's 32-bit `long`. -/
def LONG_MIN : Int := -2147483648

/-- Conversion of a signed integer to the target's 32-bit unsigned type
(`unsigned int` for a `%x` argument, `unsigned long` for the parsed value):
reduction modulo `2^32`. -/
def to_unsigned (v : Int) : Nat := (v % 4294967296).toNat

/-- The character `printf` writes for one hexadecimal digit under `%x`. -/
def hex_char : Nat → Char
  | 0 => '0' | 1 => '1' | 2 => '2' | 3 => '3'
  | 4 => '4' | 5 => '5' | 6 => '6' | 7 => '7'
  | 8 => '8' | 9 => '9' | 10 => 'a' | 11 => 'b'
  | 12 => 'c' | 13 => 'd' | 14 => 'e' | _ => 'f'

/-- Hexadecimal digits of `n`, most significant first, pushed in front of
`acc`; `fuel` bounds the number of digits produced. -/
def hex_digits_aux : Nat → Nat → List Nat → List Nat
  | 0, _, acc => acc
  | fuel + 1, n, acc =>
    if n < 16 then n :: acc else hex_digits_aux fuel (n / 16) (n % 16 :: acc)

/-- Hexadecimal digits of a 32-bit unsigned value (at most eight of them),
most significant first; `0` is the single digit `0`. -/
def hex_digits (n : Nat) : List Nat := hex_digits_aux 8 n []

/-- The conversion `%0<width>x` of `printf`: the argument is read as an
`unsigned int`, written in lower-case hexadecimal and padded on the left with
`'0'` up to `width` characters; a longer number is never cut. -/
def fmt_0x (width : Nat) (arg : Int) : List Char :=
  let ds := (hex_digits (to_unsigned arg)).map hex_char
  List.replicate (width - ds.length) '0' ++ ds

/-- The characters `sprintf(buf, "%02x67%04x", channel, value)` writes. -/
def sprintf_02x67_04x (channel value : Int) : List Char :=
  fmt_0x 2 channel ++ ['6', '7'] ++ fmt_0x 4 value

/-- The characters `sprintf(buf, "%02x68%02x", channel, value)` writes. -/
def sprintf_02x68_02x (channel value : Int) : List Char :=
  fmt_0x 2 channel ++ ['6', '8'] ++ fmt_0x 2 value

/-- The C locale's `isspace`: space and the control characters 9 to 13. -/
def isspace (c : Char) : Bool := c.toNat == 32 || (9 ≤ c.toNat && c.toNat ≤ 13)

/-- Value of a character as a base-16 digit, if it is one. -/
def hex_value (c : Char) : Option Nat :=
  if 48 ≤ c.toNat ∧ c.toNat ≤ 57 then some (c.toNat - 48)
  else if 97 ≤ c.toNat ∧ c.toNat ≤ 102 then some (c.toNat - 87)
  else if 65 ≤ c.toNat ∧ c.toNat ≤ 70 then some (c.toNat - 55)
  else none

/-- Whether a character is a base-16 digit. -/
def is_xdigit (c : Char) : Bool := (hex_value c).isSome

/-- One accumulation step of the digit loop of `strtol`. -/
def strtol_step (acc : Nat) (c : Char) : Nat := acc * 16 + (hex_value c).getD 0

/-- Magnitude of the longest run of base-16 digits at the front of `s`. -/
def strtol_magnitude (s : List Char) : Nat :=
  (s.takeWhile is_xdigit).foldl strtol_step 0

/-- The sign part of `strtol`: an optional `+` or `-`. -/
def strtol_sign : List Char → Bool × List Char
  | '-' :: r => (true, r)
  | '+' :: r => (false, r)
  | s => (false, s)

/-- The prefix part of `strtol` in base 16: an optional `0x` or `0X` in front
of a digit is skipped. -/
def strtol_skip_0x : List Char → List Char
  | '0' :: x :: c :: r =>
    if (x = 'x' ∨ x = 'X') ∧ is_xdigit c = true then c :: r else '0' :: x :: c :: r
  | s => s

/-- The call `strtol(s, NULL, 16)` on the target: white space, sign, optional
`0x`, the digits; a value outside the range of `long` is replaced by
`LONG_MAX`, respectively `LONG_MIN`. -/
def strtol16 (s : List Char) : Int :=
  let signed := strtol_sign (s.dropWhile isspace)
  let mag : Int := strtol_magnitude (strtol_skip_0x signed.2)
  if signed.1 then (if -mag < LONG_MIN then LONG_MIN else -mag)
  else (if LONG_MAX < mag then LONG_MAX else mag)

/-! ## The payload built by one loop iteration (`main`, lines 132 to 165) -/

/-- The eleven bytes of `bytearray` after lines 132 to 165, as a function of
the three `int16_t` locals `adc_temperature_byte`, `temperature` and
`humidity_v`. Each value goes through `sprintf`, `strtol`, the cast to `int`
(same width as `long`), the conversion to `unsigned long`, and the conversion
to `unsigned char` of the array element. -/
def build_payload (adc_temperature_byte temperature humidity_v : Int) : List Nat :=
  let cayenne_lpp_int_tmp :=
    to_unsigned (strtol16 (sprintf_02x67_04x 1 adc_temperature_byte))
  let cayenne_lpp_int_tmp_temperature :=
    to_unsigned (strtol16 (sprintf_02x67_04x 2 temperature))
  let cayenne_lpp_int_tmp_humidity :=
    to_unsigned (strtol16 (sprintf_02x68_02x 3 humidity_v))
  [0x01, 0x67,
   (cayenne_lpp_int_tmp >>> 8) % 256,
   (cayenne_lpp_int_tmp &&& 0xff) % 256,
   0x02, 0x67,
   (cayenne_lpp_int_tmp_temperature >>> 8) % 256,
   (cayenne_lpp_int_tmp_temperature &&& 0xff) % 256,
   0x03, 0x68,
   cayenne_lpp_int_tmp_humidity % 256]

/-! ## Die temperature (`internal_temperature_get`, lines 203 to 220)

The source computes in `float`/`double`; the embedding is over exact rational
arithmetic, which is what the statements about this function are about. -/

/-- Line 212: `adc_voltage = adc_raw * v_ref / 4095.0f` with `v_ref = 3.3`. -/
def adc_voltage_of_raw (adc_raw : Nat) : ℚ :=
  let v_ref : ℚ := 3.3
  adc_raw * v_ref / 4095.0

/-- Line 217: `adc_temperature = 27.0 - ((adc_voltage - 0.706) / 0.001721)`. -/
def adc_temperature_of_voltage (adc_voltage : ℚ) : ℚ :=
  27.0 - ((adc_voltage - 0.706) / 0.001721)

/-- The function `internal_temperature_get`, as a function of the code that
`adc_read()` returns: no branch, no clamp, no error return. -/
def internal_temperature_get (adc_raw : Nat) : ℚ :=
  adc_temperature_of_voltage (adc_voltage_of_raw adc_raw)

/-- Conversion of a real value to a C integer type: the fractional part is
discarded (truncation toward zero). -/
def c_truncate (q : ℚ) : Int := if 0 ≤ q then ⌊q⌋ else ⌈q⌉

/-- Line 110: `int16_t adc_temperature_byte = internal_temperature_get() * 10`,
before the value is stored in the 16-bit variable. -/
def adc_temperature_scaled (adc_raw : Nat) : Int :=
  c_truncate (internal_temperature_get adc_raw * 10)

/-! ## Calls, state and the environment of `main` -/

/-- The three results of `dht_finish_measurement_blocking` that `main` names. -/
inductive dht_result_t
  | DHT_RESULT_OK
  | DHT_RESULT_TIMEOUT
  | DHT_RESULT_BAD_CHECKSUM
  deriving DecidableEq, Repr

/-- A call `main` makes into the SDK, the sensor driver or the network stack,
with its arguments and, where `main` looks at it, what it returned. -/
inductive Call
  | stdio_init_all
  | tud_cdc_connected (answer : Bool)
  | tight_loop_contents
  | gpio_init
  | gpio_set_dir
  | internal_temperature_init
  | lorawan_init_otaa (ret : Int)
  | lorawan_join
  | lorawan_is_joined (answer : Bool)
  | lorawan_process_timeout_ms (timeout_ms : Nat)
  | dht_init
  | internal_temperature_get
  | dht_start_measurement
  | dht_finish_measurement_blocking (result : dht_result_t)
  | lorawan_send_unconfirmed (data : List Nat) (data_len : Nat) (app_port : Nat)
  | lorawan_receive (ret : Int)
  | gpio_put (value : Bool)
  | sleep_ms (ms : Nat)
  deriving DecidableEq, Repr

/-- The globals of lines 56 to 58 and the level of `PICO_DEFAULT_LED_PIN`. -/
structure State where
  receive_length : Int
  receive_buffer : List Nat
  receive_port : Nat
  led : Bool
  deriving DecidableEq, Repr

/-- A downlink message held by the network stack. -/
structure Downlink where
  bytes : List Nat
  port : Nat
  deriving DecidableEq, Repr

/-- Modelled from the spec: `lorawan_receive` of the network stack, which is
not part of `src/` (`receive(buffer) -> Option<(length, port)>`, a message of
at most 242 bytes). Without a message it returns `-1` and leaves buffer and
port alone; with one it stores the message bytes at the front of the buffer,
stores the port and returns the length. The result is the return value, the
buffer and the port after the call. -/
def lorawan_receive (pending : Option Downlink) (buffer : List Nat) (port : Nat) :
    Int × List Nat × Nat :=
  match pending with
  | none => (-1, buffer, port)
  | some d => (d.bytes.length, d.bytes ++ buffer.drop d.bytes.length, d.port)

/-- What the environment answers during one loop iteration. The three integer
fields are the values of the `int16_t` locals after the conversions from
`float` at lines 110, 147 and 159; for `temperature` and `humidity_v` that is
whatever `temperature_c` and `humidity` hold, also when the driver reported a
failure and did not write them. -/
structure CycleInput where
  adc_temperature_byte : Int
  dht_result : dht_result_t
  temperature : Int
  humidity_v : Int
  send_ret : Int
  process_ret : Int
  downlink : Option Downlink
  deriving DecidableEq, Repr

/-- What the environment answers before the loop: the answer of the `k`-th
call of `tud_cdc_connected`, the result of `lorawan_init_otaa`, and the answer
of the `k`-th call of `lorawan_is_joined`. -/
structure BootInput where
  usb_connected : Nat → Bool
  init_ret : Int
  is_joined : Nat → Bool

/-! ## One loop iteration (`main`, lines 108 to 191) -/

/-- Lines 123 to 130: the three-way report on the sensor result. Only the
last branch can stop the program, through its `assert`; the value is whether
execution goes on. -/
def dht_report (result : dht_result_t) : Bool :=
  if result = dht_result_t.DHT_RESULT_OK then true
  else if result = dht_result_t.DHT_RESULT_TIMEOUT then true
  else decide (result = dht_result_t.DHT_RESULT_BAD_CHECKSUM)

/-- Lines 174 to 188, after `lorawan_process_timeout_ms(30000)` has returned
`process_ret`: the receive attempt and the write to the LED pin. The pin is
driven by `gpio_put(PICO_DEFAULT_LED_PIN, receive_buffer[0])`, whose second
parameter is a `bool`: the byte is converted by comparison with zero. -/
def downlink_handler (st : State) (process_ret : Int) (pending : Option Downlink) :
    State × List Call :=
  if process_ret = 0 then
    let r := lorawan_receive pending st.receive_buffer st.receive_port
    let st1 : State :=
      { st with receive_length := r.1, receive_buffer := r.2.1, receive_port := r.2.2 }
    if r.1 > -1 then
      let value : Bool := st1.receive_buffer.getD 0 0 != 0
      ({ st1 with led := value }, [Call.lorawan_receive r.1, Call.gpio_put value])
    else (st1, [Call.lorawan_receive r.1])
  else (st, [])

/-- One pass through the body of `while (1)`: the calls it makes, in order,
and the state it leaves. `none` is a failed `assert`. The result of
`lorawan_send_unconfirmed` (`inp.send_ret`) only selects the message printed
at lines 167 to 171, so nothing here depends on it. -/
def cycle (st : State) (inp : CycleInput) : Option (State × List Call) :=
  if dht_report inp.dht_result then
    let bytearray := build_payload inp.adc_temperature_byte inp.temperature inp.humidity_v
    let handled := downlink_handler st inp.process_ret inp.downlink
    some (handled.1,
      [Call.internal_temperature_get,
       Call.dht_start_measurement,
       Call.dht_finish_measurement_blocking inp.dht_result,
       Call.lorawan_send_unconfirmed bytearray 11 2,
       Call.lorawan_process_timeout_ms 30000]
      ++ handled.2 ++ [Call.sleep_ms 300000])
  else none

/-- The first iterations of `while (1)`, one per element of `inputs`. -/
def run_cycles (st : State) : List CycleInput → Option (State × List Call)
  | [] => some (st, [])
  | inp :: rest =>
    match cycle st inp with
    | none => none
    | some (st1, tr1) =>
      match run_cycles st1 rest with
      | none => none
      | some (st2, tr2) => some (st2, tr1 ++ tr2)

/-! ## Start-up (`main`, lines 66 to 106) -/

/-- Lines 68 to 70: `while (!tud_cdc_connected()) tight_loop_contents();`,
from the `k`-th poll on; `none` when `fuel` polls were not enough. -/
def wait_usb (usb_connected : Nat → Bool) : Nat → Nat → Option (List Call)
  | 0, _ => none
  | fuel + 1, k =>
    if usb_connected k then some [Call.tud_cdc_connected true]
    else
      match wait_usb usb_connected fuel (k + 1) with
      | none => none
      | some tr => some (Call.tud_cdc_connected false :: Call.tight_loop_contents :: tr)

/-- Lines 98 to 101: `while (!lorawan_is_joined()) lorawan_process_timeout_ms(1000);`,
from the `k`-th poll on; `none` when `fuel` polls were not enough. -/
def wait_joined (is_joined : Nat → Bool) : Nat → Nat → Option (List Call)
  | 0, _ => none
  | fuel + 1, k =>
    if is_joined k then some [Call.lorawan_is_joined true]
    else
      match wait_joined is_joined fuel (k + 1) with
      | none => none
      | some tr =>
        some (Call.lorawan_is_joined false :: Call.lorawan_process_timeout_ms 1000 :: tr)

/-- How far an execution of `main` has come. -/
inductive Outcome
  /-- Every supplied iteration has run; the loop goes on. -/
  | running (st : State) (trace : List Call)
  /-- The stack failed to initialise; `main` spins in `while (1)`. -/
  | parked (trace : List Call)
  /-- An `assert` failed. -/
  | aborted
  /-- A wait loop was still polling when the fuel ran out. -/
  | waiting
  deriving DecidableEq

/-- The globals at reset (zero-initialised) and the LED pin low. -/
def initial_state : State :=
  { receive_length := 0, receive_buffer := List.replicate 242 0, receive_port := 0, led := false }

/-- The function `main`: start-up, join, then the iterations in `inputs`.
`fuel` bounds the number of polls of each of the two wait loops. -/
def main (fuel : Nat) (boot : BootInput) (inputs : List CycleInput) : Outcome :=
  match wait_usb boot.usb_connected fuel 0 with
  | none => Outcome.waiting
  | some usb =>
    let setup := Call.stdio_init_all :: usb ++
      [Call.gpio_init, Call.gpio_set_dir, Call.internal_temperature_init,
       Call.lorawan_init_otaa boot.init_ret]
    if boot.init_ret < 0 then Outcome.parked setup
    else
      match wait_joined boot.is_joined fuel 0 with
      | none => Outcome.waiting
      | some polls =>
        match run_cycles initial_state inputs with
        | none => Outcome.aborted
        | some (st, tr) =>
          Outcome.running st (setup ++ Call.lorawan_join :: polls ++ Call.dht_init :: tr)

/-! ## Vocabulary of the statements -/

/-- The trace of `n` unsuccessful join polls, each followed by its service call. -/
def join_polls : Nat → List Call
  | 0 => []
  | n + 1 =>
    Call.lorawan_is_joined false :: Call.lorawan_process_timeout_ms 1000 :: join_polls n

/-- The trace of `n` unsuccessful polls of the USB console. -/
def usb_polls : Nat → List Call
  | 0 => []
  | n + 1 => Call.tud_cdc_connected false :: Call.tight_loop_contents :: usb_polls n

/-- Whether a call is an uplink. -/
def is_send : Call → Bool
  | Call.lorawan_send_unconfirmed _ _ _ => true
  | _ => false

/-- Whether a call belongs to the uplink, downlink and sleep steps of an iteration. -/
def is_radio_or_sleep : Call → Bool
  | Call.lorawan_send_unconfirmed _ _ _ => true
  | Call.lorawan_process_timeout_ms _ => true
  | Call.lorawan_receive _ => true
  | Call.sleep_ms _ => true
  | _ => false

/-- The payload of a call, if the call is an uplink. -/
def uplink_data : Call → Option (List Nat)
  | Call.lorawan_send_unconfirmed data _ _ => some data
  | _ => none

/-- The payloads of the uplinks in a trace, in order. -/
def sent_payloads (trace : List Call) : List (List Nat) := trace.filterMap uplink_data

/-- The two record types of the wire format. -/
inductive RecordKind
  | temperature
  | humidity
  deriving DecidableEq, Repr

/-- One record of a telemetry frame: channel, type and raw value. -/
structure Record where
  channel : Nat
  kind : RecordKind
  value : Nat
  deriving DecidableEq, Repr

/-- Reading of a frame as a sequence of records in the wire format of the
specification: `[channel, 0x67, hi, lo]` is a temperature record,
`[channel, 0x68, v]` a humidity record; anything else is not a frame. -/
def decode_records : List Nat → Option (List Record)
  | [] => some []
  | channel :: 0x67 :: hi :: lo :: rest =>
    (decode_records rest).map (fun rs => ⟨channel, RecordKind.temperature, hi * 256 + lo⟩ :: rs)
  | channel :: 0x68 :: v :: rest =>
    (decode_records rest).map (fun rs => ⟨channel, RecordKind.humidity, v⟩ :: rs)
  | _ => none

/-- The channels of the records a frame carries (none if it does not decode). -/
def frame_channels (payload : List Nat) : List Nat :=
  match decode_records payload with
  | none => []
  | some rs => rs.map Record.channel

/-- Value of a list of base-16 digits read from the left, starting from `a`. -/
def digits_value (a : Nat) (ds : List Nat) : Nat := ds.foldl (fun acc d => acc * 16 + d) a

/-- The digits `%0<width>x` writes for the unsigned value `u`: the digits of
`u` behind the padding zeros. -/
def padded_digits (width u : Nat) : List Nat :=
  List.replicate (width - (hex_digits u).length) 0 ++ hex_digits u

/-! ## Facts about the C library model -/

theorem hex_value_hex_char (d : Nat) (h : d < 16) : hex_value (hex_char d) = some d := by
  interval_cases d <;> rfl

theorem is_xdigit_hex_char (d : Nat) : is_xdigit (hex_char d) = true := by
  by_cases h : d < 16
  · simp [is_xdigit, hex_value_hex_char d h]
  · have : hex_char d = 'f' := by
      unfold hex_char
      split <;> first | omega | rfl
    rw [this]; rfl

theorem hex_char_ne_x (d : Nat) : hex_char d ≠ 'x' ∧ hex_char d ≠ 'X' := by
  unfold hex_char
  split <;> decide

theorem digits_value_append (a : Nat) (xs ys : List Nat) :
    digits_value a (xs ++ ys) = digits_value (digits_value a xs) ys := by
  simp [digits_value, List.foldl_append]

theorem digits_value_shift (ds : List Nat) (a : Nat) :
    digits_value a ds = a * 16 ^ ds.length + digits_value 0 ds := by
  induction ds using List.reverseRecOn with
  | nil => simp [digits_value]
  | append_singleton xs x ih =>
    rw [digits_value_append, digits_value_append, ih]
    simp only [digits_value, List.foldl_cons, List.foldl_nil, List.length_append,
      List.length_singleton, pow_succ]
    ring

theorem digits_value_replicate_zero (p a : Nat) :
    digits_value a (List.replicate p 0) = a * 16 ^ p := by
  rw [digits_value_shift]
  have : ∀ q, digits_value 0 (List.replicate q 0) = 0 := by
    intro q
    induction q with
    | zero => rfl
    | succ q ih => simpa [digits_value, List.replicate_succ] using ih
  simp [this]

theorem strtol_fold_hex_chars (ds : List Nat) (h : ∀ d ∈ ds, d < 16) (a : Nat) :
    (ds.map hex_char).foldl strtol_step a = digits_value a ds := by
  induction ds generalizing a with
  | nil => rfl
  | cons d ds ih =>
    have hd : d < 16 := h d (List.mem_cons_self _ _)
    simp only [List.map_cons, List.foldl_cons, digits_value]
    rw [ih (fun e he => h e (List.mem_cons_of_mem _ he))]
    simp [strtol_step, hex_value_hex_char d hd, digits_value]

theorem strtol_magnitude_hex_chars (ds : List Nat) (h : ∀ d ∈ ds, d < 16) :
    strtol_magnitude (ds.map hex_char) = digits_value 0 ds := by
  unfold strtol_magnitude
  have hall : (ds.map hex_char).takeWhile is_xdigit = ds.map hex_char := by
    rw [List.takeWhile_eq_self_iff]
    intro c hc
    obtain ⟨d, _, rfl⟩ := List.mem_map.mp hc
    exact is_xdigit_hex_char d
  rw [hall, strtol_fold_hex_chars ds h]

theorem hex_digits_aux_lt (fuel : Nat) : ∀ (n : Nat) (acc : List Nat),
    (∀ d ∈ acc, d < 16) → ∀ d ∈ hex_digits_aux fuel n acc, d < 16 := by
  induction fuel with
  | zero => intro n acc h d hd; exact h d hd
  | succ fuel ih =>
    intro n acc h d hd
    unfold hex_digits_aux at hd
    split at hd
    · rcases List.mem_cons.mp hd with rfl | hm
      · assumption
      · exact h d hm
    · refine ih (n / 16) (n % 16 :: acc) ?_ d hd
      intro e he
      rcases List.mem_cons.mp he with rfl | hm
      · exact Nat.mod_lt _ (by norm_num)
      · exact h e hm

theorem hex_digits_aux_value (fuel : Nat) : ∀ (n : Nat) (acc : List Nat),
    n < 16 ^ fuel → digits_value 0 (hex_digits_aux fuel n acc) = digits_value n acc := by
  induction fuel with
  | zero =>
    intro n acc h
    have : n = 0 := by simpa using h
    subst this; rfl
  | succ fuel ih =>
    intro n acc h
    unfold hex_digits_aux
    split
    · simp [digits_value]
    · rw [ih (n / 16) (n % 16 :: acc) (by rw [pow_succ] at h; omega)]
      simp only [digits_value, List.foldl_cons]
      congr 1
      omega

theorem hex_digits_aux_length (fuel : Nat) : ∀ (n : Nat) (acc : List Nat) (k : Nat),
    1 ≤ k → n < 16 ^ k → (hex_digits_aux fuel n acc).length ≤ k + acc.length := by
  induction fuel with
  | zero => intro n acc k _ _; simp [hex_digits_aux]
  | succ fuel ih =>
    intro n acc k hk h
    unfold hex_digits_aux
    split
    · simp; omega
    · rename_i hn
      obtain ⟨j, rfl⟩ : ∃ j, k = j + 1 := ⟨k - 1, by omega⟩
      have hj : 1 ≤ j := by
        rcases Nat.eq_zero_or_pos j with rfl | hpos
        · simp at h; omega
        · exact hpos
      have := ih (n / 16) (n % 16 :: acc) j hj (by rw [pow_succ] at h; omega)
      simp only [List.length_cons] at this
      omega

theorem hex_digits_aux_length_pos (fuel : Nat) (n : Nat) (acc : List Nat) :
    acc.length ≤ (hex_digits_aux fuel n acc).length := by
  induction fuel generalizing n acc with
  | zero => simp [hex_digits_aux]
  | succ fuel ih =>
    unfold hex_digits_aux
    split
    · simp
    · have := ih (n / 16) (n % 16 :: acc)
      simp only [List.length_cons] at this
      omega


theorem fmt_0x_eq (width : Nat) (arg : Int) :
    fmt_0x width arg = (padded_digits width (to_unsigned arg)).map hex_char := by
  simp [fmt_0x, padded_digits, hex_char]

theorem padded_digits_lt (width u : Nat) : ∀ d ∈ padded_digits width u, d < 16 := by
  intro d hd
  rcases List.mem_append.mp hd with h | h
  · rw [List.eq_of_mem_replicate h]; norm_num
  · exact hex_digits_aux_lt 8 u [] (by simp) d h

theorem padded_digits_value (width u : Nat) (hu : u < 16 ^ 8) (a : Nat) :
    digits_value a (padded_digits width u) = a * 16 ^ (padded_digits width u).length + u := by
  rw [digits_value_shift]
  congr 1
  unfold padded_digits
  rw [digits_value_append, digits_value_replicate_zero]
  simpa [hex_digits] using hex_digits_aux_value 8 u [] hu

theorem hex_digits_length_le (u k : Nat) (hk : 1 ≤ k) (hu : u < 16 ^ k) :
    (hex_digits u).length ≤ k := by
  simpa [hex_digits] using hex_digits_aux_length 8 u [] k hk hu

theorem padded_digits_length (width u : Nat) :
    (padded_digits width u).length = max width (hex_digits u).length := by
  simp [padded_digits]; omega

theorem to_unsigned_lt (v : Int) : to_unsigned v < 16 ^ 8 := by
  unfold to_unsigned
  omega

theorem strtol16_zero_hex_chars (ds : List Nat) (h : ∀ d ∈ ds, d < 16) :
    strtol16 ('0' :: ds.map hex_char) =
      if LONG_MAX < (digits_value 0 ds : Int) then LONG_MAX else (digits_value 0 ds : Int) := by
  have hskip : strtol_skip_0x ('0' :: ds.map hex_char) = '0' :: ds.map hex_char := by
    match ds with
    | [] => rfl
    | [_] => rfl
    | d :: e :: r =>
      have := hex_char_ne_x d
      simp [strtol_skip_0x, this.1, this.2]
  have hmag : strtol_magnitude ('0' :: ds.map hex_char) = digits_value 0 ds := by
    have := strtol_magnitude_hex_chars (0 :: ds) (by
      intro d hd
      rcases List.mem_cons.mp hd with rfl | hm
      · norm_num
      · exact h d hm)
    simpa [hex_char, digits_value] using this
  have hsp : ('0' :: ds.map hex_char).dropWhile isspace = '0' :: ds.map hex_char := by
    rw [List.dropWhile_cons_of_neg (by decide)]
  have hsign : strtol_sign ('0' :: ds.map hex_char) = (false, '0' :: ds.map hex_char) := rfl
  simp only [strtol16, hsp, hsign]
  rw [hskip, hmag]
  simp

/-- Value parsed back from `"%02x67%04x"` and `"%02x68%02x"`: the two header
bytes followed by the padded digits of the value argument. -/
theorem strtol16_record (c t w : Nat) (hc : c < 16) (ht : t < 16) (u : Nat) (hu : u < 16 ^ 8) :
    strtol16 ('0' :: hex_char c :: '6' :: hex_char t :: (padded_digits w u).map hex_char) =
      if LONG_MAX < (((c * 256 + 96 + t) * 16 ^ (padded_digits w u).length + u : Nat) : Int)
      then LONG_MAX
      else (((c * 256 + 96 + t) * 16 ^ (padded_digits w u).length + u : Nat) : Int) := by
  have := strtol16_zero_hex_chars (c :: 6 :: t :: padded_digits w u) (by
    intro d hd
    simp only [List.mem_cons] at hd
    rcases hd with rfl | rfl | rfl | hm
    · exact hc
    · norm_num
    · exact ht
    · exact padded_digits_lt w u d hm)
  have hv : digits_value 0 (c :: 6 :: t :: padded_digits w u) =
      (c * 256 + 96 + t) * 16 ^ (padded_digits w u).length + u := by
    have h3 : digits_value 0 (c :: 6 :: t :: padded_digits w u) =
        digits_value (c * 256 + 96 + t) (padded_digits w u) := by
      simp only [digits_value, List.foldl_cons]
      congr 1
      ring
    rw [h3, padded_digits_value w u hu]
  rw [hv] at this
  simpa [hex_char] using this


theorem to_unsigned_natCast (n : Nat) (h : n < 4294967296) : to_unsigned (n : Int) = n := by
  unfold to_unsigned
  omega

theorem fmt_0x_two_digit (c : Nat) (hc : c < 16) : fmt_0x 2 (c : Int) = ['0', hex_char c] := by
  rw [fmt_0x_eq, to_unsigned_natCast c (by omega)]
  simp [padded_digits, hex_digits, hex_digits_aux, hc, hex_char]

theorem sprintf_02x67_04x_eq (c : Nat) (hc : c < 16) (v : Int) :
    sprintf_02x67_04x (c : Int) v =
      '0' :: hex_char c :: '6' :: hex_char 7 :: (padded_digits 4 (to_unsigned v)).map hex_char := by
  rw [sprintf_02x67_04x, fmt_0x_two_digit c hc, fmt_0x_eq]
  rfl

theorem sprintf_02x68_02x_eq (c : Nat) (hc : c < 16) (v : Int) :
    sprintf_02x68_02x (c : Int) v =
      '0' :: hex_char c :: '6' :: hex_char 8 :: (padded_digits 2 (to_unsigned v)).map hex_char := by
  rw [sprintf_02x68_02x, fmt_0x_two_digit c hc, fmt_0x_eq]
  rfl

/-- A temperature value in `0 .. 65535` is written with exactly four digits and
parsed back without loss behind the record header. -/
theorem parsed_temperature_of_nonneg (c : Nat) (hc : c < 16) (t : Nat) (ht : t < 65536) :
    to_unsigned (strtol16 (sprintf_02x67_04x (c : Int) (t : Int))) =
      (c * 256 + 103) * 65536 + t := by
  rw [sprintf_02x67_04x_eq c hc, to_unsigned_natCast t (by omega),
    strtol16_record c 7 4 hc (by norm_num) t (by norm_num; omega)]
  have hlen : (padded_digits 4 t).length = 4 := by
    rw [padded_digits_length]
    have := hex_digits_length_le t 4 (by norm_num) (by norm_num; omega)
    omega
  rw [hlen]
  have hle : ¬ LONG_MAX < (((c * 256 + 96 + 7) * 16 ^ 4 + t : Nat) : Int) := by
    unfold LONG_MAX
    push_cast
    omega
  rw [if_neg hle]
  rw [to_unsigned_natCast _ (by omega)]
  omega

/-- A negative `int16_t` value is written with eight digits (`ffff....`); the
twelve-digit string exceeds `LONG_MAX` and `strtol` saturates. -/
theorem parsed_temperature_of_neg (c : Nat) (hc : c < 16) (v : Int)
    (hlo : -32768 ≤ v) (hhi : v ≤ -1) :
    to_unsigned (strtol16 (sprintf_02x67_04x (c : Int) v)) = 2147483647 := by
  rw [sprintf_02x67_04x_eq c hc,
    strtol16_record c 7 4 hc (by norm_num) (to_unsigned v) (to_unsigned_lt v)]
  have hu : 4294934528 ≤ to_unsigned v := by
    unfold to_unsigned
    omega
  have hgt : LONG_MAX <
      (((c * 256 + 96 + 7) * 16 ^ (padded_digits 4 (to_unsigned v)).length + to_unsigned v : Nat) :
        Int) := by
    unfold LONG_MAX
    have : to_unsigned v ≤
        (c * 256 + 96 + 7) * 16 ^ (padded_digits 4 (to_unsigned v)).length + to_unsigned v :=
      Nat.le_add_left _ _
    omega
  rw [if_pos hgt]
  rfl

/-- A humidity value in `0 .. 32767` is written with two to four digits; the
parsed number keeps the value in its low bits. -/
theorem parsed_humidity_of_nonneg (c : Nat) (hc : c < 16) (h : Nat) (hh : h ≤ 32767) :
    to_unsigned (strtol16 (sprintf_02x68_02x (c : Int) (h : Int))) % 256 = h % 256 := by
  rw [sprintf_02x68_02x_eq c hc, to_unsigned_natCast h (by omega),
    strtol16_record c 8 2 hc (by norm_num) h (by norm_num; omega)]
  have hlen : 2 ≤ (padded_digits 2 h).length ∧ (padded_digits 2 h).length ≤ 4 := by
    rw [padded_digits_length]
    have := hex_digits_length_le h 4 (by norm_num) (by norm_num; omega)
    omega
  generalize (padded_digits 2 h).length = L at hlen
  obtain ⟨h2, h4⟩ := hlen
  have hle : ¬ LONG_MAX < (((c * 256 + 96 + 8) * 16 ^ L + h : Nat) : Int) := by
    unfold LONG_MAX
    interval_cases L <;> push_cast <;> omega
  rw [if_neg hle]
  rw [to_unsigned_natCast _ (by interval_cases L <;> omega)]
  interval_cases L <;> omega

/-- Both format strings write at most twelve characters for a one-digit
channel, so the terminated string fits the 13-byte arrays of lines 135, 146
and 158 for every argument. -/
theorem sprintf_fits_buffer (c : Nat) (hc : c < 16) (v : Int) :
    (sprintf_02x67_04x (c : Int) v).length ≤ 12 ∧ (sprintf_02x68_02x (c : Int) v).length ≤ 12 := by
  have h8 := hex_digits_length_le (to_unsigned v) 8 (by norm_num) (to_unsigned_lt v)
  have l4 := padded_digits_length 4 (to_unsigned v)
  have l2 := padded_digits_length 2 (to_unsigned v)
  rw [sprintf_02x67_04x_eq c hc, sprintf_02x68_02x_eq c hc]
  simp only [List.length_cons, List.length_map]
  omega

/-! ## Facts about the payload -/

theorem build_payload_length (a t h : Int) : (build_payload a t h).length = 11 := rfl

theorem low_bytes_of_record (x t : Nat) (ht : t < 65536) :
    ((x * 65536 + t) >>> 8) % 256 = t >>> 8 ∧ ((x * 65536 + t) &&& 0xff) % 256 = t &&& 0xff := by
  have hand : ∀ y : Nat, y &&& 0xff = y % 256 := fun y => Nat.and_pow_two_sub_one_eq_mod y 8
  rw [hand, hand]
  simp only [Nat.shiftRight_eq_div_pow]
  omega

/-! ## Facts about the loop -/

theorem dht_report_true (result : dht_result_t) : dht_report result = true := by
  cases result <;> rfl

theorem cycle_eq (st : State) (inp : CycleInput) :
    cycle st inp = some ((downlink_handler st inp.process_ret inp.downlink).1,
      [Call.internal_temperature_get,
       Call.dht_start_measurement,
       Call.dht_finish_measurement_blocking inp.dht_result,
       Call.lorawan_send_unconfirmed
         (build_payload inp.adc_temperature_byte inp.temperature inp.humidity_v) 11 2,
       Call.lorawan_process_timeout_ms 30000]
      ++ (downlink_handler st inp.process_ret inp.downlink).2 ++ [Call.sleep_ms 300000]) := by
  simp [cycle, dht_report_true]

theorem downlink_handler_trace (st : State) (process_ret : Int) (pending : Option Downlink) :
    (downlink_handler st process_ret pending).2 =
      if process_ret = 0 then
        Call.lorawan_receive (lorawan_receive pending st.receive_buffer st.receive_port).1 ::
          (if (lorawan_receive pending st.receive_buffer st.receive_port).1 > -1 then
            [Call.gpio_put
              ((lorawan_receive pending st.receive_buffer st.receive_port).2.1.getD 0 0 != 0)]
           else [])
      else [] := by
  unfold downlink_handler
  by_cases h0 : process_ret = 0
  · by_cases h1 : (lorawan_receive pending st.receive_buffer st.receive_port).1 > -1
    · simp only [h0, h1, if_true]
    · simp only [h0, h1, if_true, if_false]
  · simp only [h0, if_false]

theorem downlink_handler_no_join (st : State) (process_ret : Int) (pending : Option Downlink) :
    ∀ c ∈ (downlink_handler st process_ret pending).2, c ≠ Call.lorawan_join := by
  intro c hc
  rw [downlink_handler_trace] at hc
  split at hc
  · split at hc <;> simp at hc <;> rcases hc with rfl | rfl <;> simp
  · simp at hc

theorem downlink_handler_led_invariant (st : State) (process_ret : Int)
    (pending : Option Downlink) (h : st.led = (st.receive_buffer.getD 0 0 != 0)) :
    (downlink_handler st process_ret pending).1.led =
      ((downlink_handler st process_ret pending).1.receive_buffer.getD 0 0 != 0) := by
  unfold downlink_handler
  split
  · cases pending with
    | none => simpa [lorawan_receive] using h
    | some d =>
      have : (-1 : Int) < (d.bytes.length : Int) := by omega
      simp [lorawan_receive, this]
  · exact h

theorem run_cycles_spec (inputs : List CycleInput) : ∀ st : State,
    ∃ st1 tr, run_cycles st inputs = some (st1, tr) ∧
      (∀ c ∈ tr, c ≠ Call.lorawan_join) ∧
      (st.led = (st.receive_buffer.getD 0 0 != 0) →
        st1.led = (st1.receive_buffer.getD 0 0 != 0)) := by
  induction inputs with
  | nil => intro st; exact ⟨st, [], rfl, by simp, id⟩
  | cons inp rest ih =>
    intro st
    obtain ⟨st2, tr2, h2, hj2, hinv2⟩ := ih (downlink_handler st inp.process_ret inp.downlink).1
    refine ⟨st2, _, by simp only [run_cycles, cycle_eq, h2]; rfl, ?_, ?_⟩
    · intro c hc
      simp only [List.mem_append, List.mem_cons, List.mem_singleton, List.not_mem_nil,
        or_false] at hc
      rcases hc with ((h | h) | h) | h
      · rcases h with rfl | rfl | rfl | rfl | rfl <;> simp
      · exact downlink_handler_no_join _ _ _ c h
      · subst h; simp
      · exact hj2 c h
    · intro h
      exact hinv2 (downlink_handler_led_invariant st _ _ h)

theorem run_cycles_cons_trace (st : State) (inp : CycleInput) (rest : List CycleInput) :
    ∃ st1 tr, run_cycles st (inp :: rest) = some (st1, tr) ∧
      ∃ tail, tr =
        [Call.internal_temperature_get,
         Call.dht_start_measurement,
         Call.dht_finish_measurement_blocking inp.dht_result] ++
        Call.lorawan_send_unconfirmed
          (build_payload inp.adc_temperature_byte inp.temperature inp.humidity_v) 11 2 :: tail := by
  obtain ⟨st2, tr2, h2, -, -⟩ :=
    run_cycles_spec rest (downlink_handler st inp.process_ret inp.downlink).1
  exact ⟨st2, _, by simp only [run_cycles, cycle_eq, h2]; rfl, _, by simp only [List.append_assoc, List.cons_append, List.nil_append]; rfl⟩

theorem wait_usb_eq (usb : Nat → Bool) : ∀ (u fuel k : Nat),
    (∀ i, i < u → usb (k + i) = false) → usb (k + u) = true → u < fuel →
    wait_usb usb fuel k = some (usb_polls u ++ [Call.tud_cdc_connected true]) := by
  intro u
  induction u with
  | zero =>
    intro fuel k _ h1 hf
    obtain ⟨f, rfl⟩ : ∃ f, fuel = f + 1 := ⟨fuel - 1, by omega⟩
    simp only [Nat.add_zero] at h1
    simp [wait_usb, h1, usb_polls]
  | succ u ih =>
    intro fuel k h0 h1 hf
    obtain ⟨f, rfl⟩ : ∃ f, fuel = f + 1 := ⟨fuel - 1, by omega⟩
    have hk : usb k = false := by simpa using h0 0 (by omega)
    have hrec := ih f (k + 1)
      (fun i hi => by have := h0 (i + 1) (by omega); rwa [show k + 1 + i = k + (i + 1) by omega])
      (by rwa [show k + 1 + u = k + (u + 1) by omega]) (by omega)
    simp [wait_usb, hk, hrec, usb_polls]

theorem wait_joined_eq (joined : Nat → Bool) : ∀ (n fuel k : Nat),
    (∀ i, i < n → joined (k + i) = false) → joined (k + n) = true → n < fuel →
    wait_joined joined fuel k = some (join_polls n ++ [Call.lorawan_is_joined true]) := by
  intro n
  induction n with
  | zero =>
    intro fuel k _ h1 hf
    obtain ⟨f, rfl⟩ : ∃ f, fuel = f + 1 := ⟨fuel - 1, by omega⟩
    simp only [Nat.add_zero] at h1
    simp [wait_joined, h1, join_polls]
  | succ n ih =>
    intro fuel k h0 h1 hf
    obtain ⟨f, rfl⟩ : ∃ f, fuel = f + 1 := ⟨fuel - 1, by omega⟩
    have hk : joined k = false := by simpa using h0 0 (by omega)
    have hrec := ih f (k + 1)
      (fun i hi => by have := h0 (i + 1) (by omega); rwa [show k + 1 + i = k + (i + 1) by omega])
      (by rwa [show k + 1 + n = k + (n + 1) by omega]) (by omega)
    simp [wait_joined, hk, hrec, join_polls]

theorem usb_polls_not_send (u : Nat) : ∀ c ∈ usb_polls u, (!is_send c) = true := by
  induction u with
  | zero => simp [usb_polls]
  | succ u ih =>
    intro c hc
    simp only [usb_polls, List.mem_cons] at hc
    rcases hc with rfl | rfl | h
    · rfl
    · rfl
    · exact ih c h

theorem join_polls_not_send (n : Nat) : ∀ c ∈ join_polls n, (!is_send c) = true := by
  induction n with
  | zero => simp [join_polls]
  | succ n ih =>
    intro c hc
    simp only [join_polls, List.mem_cons] at hc
    rcases hc with rfl | rfl | h
    · rfl
    · rfl
    · exact ih c h

theorem usb_polls_count_join (u : Nat) : (usb_polls u).count Call.lorawan_join = 0 := by
  induction u with
  | zero => rfl
  | succ u ih => simp [usb_polls, ih]

theorem join_polls_count_join (n : Nat) : (join_polls n).count Call.lorawan_join = 0 := by
  induction n with
  | zero => rfl
  | succ n ih => simp [join_polls, ih]

theorem join_polls_count_process (n : Nat) :
    (join_polls n).count (Call.lorawan_process_timeout_ms 1000) = n := by
  induction n with
  | zero => rfl
  | succ n ih => simp [join_polls, ih]

theorem usb_polls_count_process (u : Nat) :
    (usb_polls u).count (Call.lorawan_process_timeout_ms 1000) = 0 := by
  induction u with
  | zero => rfl
  | succ u ih => simp [usb_polls, ih]

/-! ## Facts about the die temperature -/

theorem internal_temperature_get_eq (r : Nat) :
    internal_temperature_get r = (27 + 0.706 / 0.001721) - 3.3 / (4095 * 0.001721) * (r : ℚ) := by
  simp only [internal_temperature_get, adc_temperature_of_voltage, adc_voltage_of_raw]
  ring

theorem c_truncate_bounds (q : ℚ) (lo hi : Int) (hlo : lo ≤ 0) (hhi : 0 ≤ hi)
    (h1 : (lo : ℚ) ≤ q) (h2 : q ≤ (hi : ℚ)) : lo ≤ c_truncate q ∧ c_truncate q ≤ hi := by
  unfold c_truncate
  split
  · rename_i h0
    constructor
    · exact le_trans hlo (Int.floor_nonneg.mpr h0)
    · exact_mod_cast le_trans (Int.floor_le q) h2
  · rename_i h0
    constructor
    · exact_mod_cast le_trans h1 (Int.le_ceil q)
    · exact le_trans (Int.ceil_le.mpr (by push_cast; linarith)) hhi

theorem c_truncate_neg (q : ℚ) (h : q ≤ -1) : c_truncate q < 0 := by
  unfold c_truncate
  rw [if_neg (by linarith)]
  have : ⌈q⌉ ≤ -1 := Int.ceil_le.mpr (by push_cast; exact h)
  omega

theorem sent_payloads_handler (st : State) (process_ret : Int) (pending : Option Downlink) :
    sent_payloads (downlink_handler st process_ret pending).2 = [] := by
  rw [downlink_handler_trace]
  unfold sent_payloads
  split
  · split <;> simp [uplink_data]
  · rfl

theorem cycle_sent_payloads (st : State) (inp : CycleInput) :
    (cycle st inp).map (fun r => sent_payloads r.2) =
      some [build_payload inp.adc_temperature_byte inp.temperature inp.humidity_v] := by
  rw [cycle_eq]
  have := sent_payloads_handler st inp.process_ret inp.downlink
  unfold sent_payloads at this
  simp [sent_payloads, List.filterMap_append, uplink_data, this]

theorem frame_channels_build_payload (a t h : Int) :
    frame_channels (build_payload a t h) = [1, 2, 3] := by
  simp [frame_channels, build_payload, decode_records]

theorem build_payload_of_nonneg (t1 t2 h : Nat)
    (h1 : t1 ≤ 32767) (h2 : t2 ≤ 32767) (hh : h ≤ 255) :
    build_payload t1 t2 h =
      [0x01, 0x67, t1 >>> 8, t1 &&& 0xFF, 0x02, 0x67, t2 >>> 8, t2 &&& 0xFF, 0x03, 0x68, h] := by
  have p1 := parsed_temperature_of_nonneg 1 (by norm_num) t1 (by omega)
  have p2 := parsed_temperature_of_nonneg 2 (by norm_num) t2 (by omega)
  have p3 := parsed_humidity_of_nonneg 3 (by norm_num) h (by omega)
  have b1 := low_bytes_of_record (1 * 256 + 103) t1 (by omega)
  have b2 := low_bytes_of_record (2 * 256 + 103) t2 (by omega)
  simp only [Nat.cast_one, Nat.cast_ofNat] at p1 p2 p3
  simp only [build_payload, p1, p2, p3, b1.1, b1.2, b2.1, b2.2, Nat.mod_eq_of_lt (show h < 256 by omega)]

/-! ## The claims -/

/-- Claim C1. For scaled temperatures `t1`, `t2` in `0 .. 32767` and a scaled
humidity `h` in `0 .. 255` in the three `int16_t` locals, the loop iteration
completes and its only uplink carries exactly
`01 67 t1>>8 t1&FF 02 67 t2>>8 t2&FF 03 68 h`: three records in the order die
temperature, external temperature, humidity, values big-endian, channels
1, 2, 3; for `t1 = 234`, `t2 = 221`, `h = 110` that is
`01 67 00 EA 02 67 00 DD 03 68 6E`. -/
theorem cycle_payload_of_readings (st : State) (inp : CycleInput) (t1 t2 h : Nat)
    (h1 : t1 ≤ 32767) (h2 : t2 ≤ 32767) (hh : h ≤ 255)
    (e1 : inp.adc_temperature_byte = t1) (e2 : inp.temperature = t2)
    (e3 : inp.humidity_v = h) :
    (cycle st inp).map (fun r => sent_payloads r.2) =
        some [[0x01, 0x67, t1 >>> 8, t1 &&& 0xFF, 0x02, 0x67, t2 >>> 8, t2 &&& 0xFF,
          0x03, 0x68, h]] ∧
      frame_channels (build_payload t1 t2 h) = [1, 2, 3] ∧
      build_payload 234 221 110 =
        [0x01, 0x67, 0x00, 0xEA, 0x02, 0x67, 0x00, 0xDD, 0x03, 0x68, 0x6E] := by
  refine ⟨?_, frame_channels_build_payload _ _ _, by decide⟩
  rw [cycle_sent_payloads, e1, e2, e3, build_payload_of_nonneg t1 t2 h h1 h2 hh]

/-- The statement of C1 at the readings 23.4, 22.1 and 55.0. -/
theorem cycle_payload_of_readings_witness :
    (cycle initial_state ⟨234, dht_result_t.DHT_RESULT_OK, 221, 110, 0, 1, none⟩).map
        (fun r => sent_payloads r.2) =
      some [[0x01, 0x67, 234 >>> 8, 234 &&& 0xFF, 0x02, 0x67, 221 >>> 8, 221 &&& 0xFF,
        0x03, 0x68, 110]] :=
  (cycle_payload_of_readings initial_state
    ⟨234, dht_result_t.DHT_RESULT_OK, 221, 110, 0, 1, none⟩ 234 221 110
    (by decide) (by decide) (by decide) rfl rfl rfl).1

/-- Claim C2, as the code behaves. For every negative `int16_t` value `v`, the
two value bytes of its temperature record are `FF FF`, in the die-temperature
record and in the external-temperature record alike: `%04x` prints the
promoted `int` with eight digits, the twelve-digit string is beyond the range
of the 32-bit `long`, and `strtol` returns `LONG_MAX`. The bytes are the
two's-complement representation of `v` only for `v = -1`. -/
theorem negative_temperature_bytes (v a t h : Int) (hlo : -32768 ≤ v) (hhi : v ≤ -1) :
    (build_payload v t h)[2]? = some 0xFF ∧ (build_payload v t h)[3]? = some 0xFF ∧
      (build_payload a v h)[6]? = some 0xFF ∧ (build_payload a v h)[7]? = some 0xFF := by
  have p1 := parsed_temperature_of_neg 1 (by norm_num) v hlo hhi
  have p2 := parsed_temperature_of_neg 2 (by norm_num) v hlo hhi
  simp only [Nat.cast_one, Nat.cast_ofNat] at p1 p2
  have hi : (2147483647 >>> 8) % 256 = 255 := by decide
  have lo : (2147483647 &&& 0xff) % 256 = 255 := by decide
  simp only [build_payload, p1, p2, hi, lo]
  exact ⟨rfl, rfl, rfl, rfl⟩

/-- The statement of C2 at `v = -50` (a reading of -5.0 degrees): the value
bytes are `FF FF`, not `FF CE`. -/
theorem negative_temperature_bytes_witness :
    ((-32768 : Int) ≤ -50 ∧ (-50 : Int) ≤ -1) ∧
      ((build_payload (-50) 221 110)[2]? = some 0xFF ∧
        (build_payload (-50) 221 110)[3]? = some 0xFF ∧
        (build_payload 234 (-50) 110)[6]? = some 0xFF ∧
        (build_payload 234 (-50) 110)[7]? = some 0xFF) :=
  ⟨by decide, negative_temperature_bytes (-50) 234 221 110 (by decide) (by decide)⟩

/-- Claim C3 fails: an iteration whose sensor result is `DHT_RESULT_TIMEOUT`
sends a frame that decodes to records on channels 1, 2 and 3. -/
theorem timeout_frame_has_external_records :
    (cycle initial_state ⟨234, dht_result_t.DHT_RESULT_TIMEOUT, 221, 110, 0, 1, none⟩).map
        (fun r => sent_payloads r.2) =
      some [[0x01, 0x67, 0x00, 0xEA, 0x02, 0x67, 0x00, 0xDD, 0x03, 0x68, 0x6E]] ∧
    2 ∈ frame_channels [0x01, 0x67, 0x00, 0xEA, 0x02, 0x67, 0x00, 0xDD, 0x03, 0x68, 0x6E] ∧
    3 ∈ frame_channels [0x01, 0x67, 0x00, 0xEA, 0x02, 0x67, 0x00, 0xDD, 0x03, 0x68, 0x6E] := by
  refine ⟨?_, by decide, by decide⟩
  rw [cycle_sent_payloads]
  decide

/-- Claim C3, amended. An iteration whose sensor result is
`DHT_RESULT_TIMEOUT` completes (no failed `assert`) and sends exactly one
frame; the frame has the fixed eleven-byte layout of every iteration, with the
record headers `01 67`, `02 67` and `03 68` at offsets 0, 4 and 8, and it is
the frame the same inputs give under any other sensor result. For a die
temperature `t1` in `0 .. 32767` its first record is `01 67 t1>>8 t1&FF`. -/
theorem timeout_cycle_sends_fixed_frame (st : State) (inp : CycleInput)
    (hr : inp.dht_result = dht_result_t.DHT_RESULT_TIMEOUT) :
    (cycle st inp).isSome = true ∧
      (cycle st inp).map (fun r => r.2.take 4) =
        some [Call.internal_temperature_get, Call.dht_start_measurement,
          Call.dht_finish_measurement_blocking dht_result_t.DHT_RESULT_TIMEOUT,
          Call.lorawan_send_unconfirmed
            (build_payload inp.adc_temperature_byte inp.temperature inp.humidity_v) 11 2] ∧
      (cycle st inp).map (fun r => sent_payloads r.2) =
        some [build_payload inp.adc_temperature_byte inp.temperature inp.humidity_v] ∧
      (∃ b2 b3 b6 b7 b10,
        build_payload inp.adc_temperature_byte inp.temperature inp.humidity_v =
          [0x01, 0x67, b2, b3, 0x02, 0x67, b6, b7, 0x03, 0x68, b10]) ∧
      frame_channels (build_payload inp.adc_temperature_byte inp.temperature inp.humidity_v) =
        [1, 2, 3] ∧
      (∀ result : dht_result_t,
        (cycle st { inp with dht_result := result }).map (fun r => sent_payloads r.2) =
          (cycle st inp).map (fun r => sent_payloads r.2)) ∧
      (∀ t1 : Nat, t1 ≤ 32767 → inp.adc_temperature_byte = t1 →
        (build_payload inp.adc_temperature_byte inp.temperature inp.humidity_v).take 4 =
          [0x01, 0x67, t1 >>> 8, t1 &&& 0xFF]) := by
  refine ⟨by simp [cycle_eq], by simp [cycle_eq, hr], cycle_sent_payloads st inp,
    ⟨_, _, _, _, _, rfl⟩,
    frame_channels_build_payload _ _ _, ?_, ?_⟩
  · intro result
    rw [cycle_sent_payloads, cycle_sent_payloads]
  · intro t1 h1 e1
    have p1 := parsed_temperature_of_nonneg 1 (by norm_num) t1 (by omega)
    have b1 := low_bytes_of_record (1 * 256 + 103) t1 (by omega)
    simp only [Nat.cast_one] at p1
    simp only [build_payload, e1, p1, b1.1, b1.2, List.take_succ_cons, List.take_zero]

/-- The statement of the amended C3 at a concrete iteration. -/
theorem timeout_cycle_sends_fixed_frame_witness :
    (cycle initial_state ⟨234, dht_result_t.DHT_RESULT_TIMEOUT, 221, 110, 0, 1, none⟩).isSome
        = true ∧
      (cycle initial_state ⟨234, dht_result_t.DHT_RESULT_TIMEOUT, 221, 110, 0, 1, none⟩).map
          (fun r => sent_payloads r.2) =
        some [build_payload 234 221 110] :=
  ⟨(timeout_cycle_sends_fixed_frame initial_state
      ⟨234, dht_result_t.DHT_RESULT_TIMEOUT, 221, 110, 0, 1, none⟩ rfl).1,
    (timeout_cycle_sends_fixed_frame initial_state
      ⟨234, dht_result_t.DHT_RESULT_TIMEOUT, 221, 110, 0, 1, none⟩ rfl).2.2.1⟩

theorem empty_downlink_led (st : State) (port : Nat) :
    (downlink_handler st 0 (some ⟨[], port⟩)).1.led = (st.receive_buffer.getD 0 0 != 0) := by
  simp [downlink_handler, lorawan_receive]

/-- Claim C4. In every state that `main` reaches from reset by loop
iterations, whatever the output level and the contents of the receive buffer
there, an iteration whose service call returned 0 and whose `lorawan_receive`
returns a downlink of length 0 leaves the output level and the buffer as they
were. The handler passes the guard `receive_length > -1` and calls `gpio_put`
with `receive_buffer[0]`; that byte is the one that set the level, since line
186 is the only write to the pin, so the call changes nothing. The same holds
in any state whose level agrees with `receive_buffer[0]`. -/
theorem empty_downlink_keeps_led (inputs : List CycleInput) (st : State) (tr : List Call)
    (inp : CycleInput) (port : Nat)
    (hreach : run_cycles initial_state inputs = some (st, tr))
    (hev : inp.process_ret = 0) (hdl : inp.downlink = some ⟨[], port⟩) :
    (downlink_handler st inp.process_ret inp.downlink).1.led = st.led ∧
      (cycle st inp).map (fun r => r.1.led) = some st.led ∧
      (downlink_handler st inp.process_ret inp.downlink).1.receive_buffer =
        st.receive_buffer ∧
      (downlink_handler st inp.process_ret inp.downlink).2 =
        [Call.lorawan_receive 0, Call.gpio_put st.led] ∧
      (∀ s : State, s.led = (s.receive_buffer.getD 0 0 != 0) →
        (downlink_handler s 0 (some ⟨[], port⟩)).1.led = s.led) := by
  obtain ⟨st2, tr2, h2, -, hinv⟩ := run_cycles_spec inputs initial_state
  rw [hreach] at h2
  obtain ⟨rfl, -⟩ := Prod.mk.inj (Option.some.inj h2)
  have hst : st.led = (st.receive_buffer.getD 0 0 != 0) := hinv (by decide)
  have hled : (downlink_handler st inp.process_ret inp.downlink).1.led = st.led := by
    rw [hev, hdl, empty_downlink_led st port, hst]
  refine ⟨hled, ?_, ?_, ?_, ?_⟩
  · rw [cycle_eq]
    simp only [Option.map_some', hled]
  · rw [hev, hdl]
    simp [downlink_handler, lorawan_receive]
  · rw [hev, hdl, hst]
    simp [downlink_handler, lorawan_receive]
  · intro s hs
    rw [empty_downlink_led s port, hs]

/-- The statement of C4 in the state after one iteration that received the
downlink `01`: the LED is on, and an empty downlink leaves it on. -/
theorem empty_downlink_keeps_led_witness :
    (downlink_handler initial_state 0 (some ⟨[0x01], 7⟩)).1.led = true ∧
      (downlink_handler (downlink_handler initial_state 0 (some ⟨[0x01], 7⟩)).1 0
        (some ⟨[], 9⟩)).1.led = (downlink_handler initial_state 0 (some ⟨[0x01], 7⟩)).1.led :=
  ⟨by simp [downlink_handler, lorawan_receive],
    (empty_downlink_keeps_led
      [⟨234, dht_result_t.DHT_RESULT_OK, 221, 110, 0, 0, some ⟨[0x01], 7⟩⟩]
      (downlink_handler initial_state 0 (some ⟨[0x01], 7⟩)).1
      ([Call.internal_temperature_get, Call.dht_start_measurement,
        Call.dht_finish_measurement_blocking dht_result_t.DHT_RESULT_OK,
        Call.lorawan_send_unconfirmed (build_payload 234 221 110) 11 2,
        Call.lorawan_process_timeout_ms 30000] ++
        (downlink_handler initial_state 0 (some ⟨[0x01], 7⟩)).2 ++
        [Call.sleep_ms 300000] ++ [])
      ⟨234, dht_result_t.DHT_RESULT_OK, 221, 110, 0, 0, some ⟨[], 9⟩⟩ 9
      (by simp only [run_cycles, cycle_eq]) rfl rfl).1⟩

/-- Claim C5. When the service call returned 0 and `lorawan_receive` returns a
downlink of length 1 to 242 on any port, the output level after the handler is
decided by byte 0 of the message alone: active if it is nonzero, inactive if it
is zero, whatever the state before, the port and the bytes behind the first. -/
theorem downlink_first_byte_sets_led (st : State) (d : Downlink)
    (hlen : 1 ≤ d.bytes.length) (hmax : d.bytes.length ≤ 242) :
    (downlink_handler st 0 (some d)).1.led = (d.bytes.getD 0 0 != 0) ∧
      (d.bytes.getD 0 0 ≠ 0 → (downlink_handler st 0 (some d)).1.led = true) ∧
      (d.bytes.getD 0 0 = 0 → (downlink_handler st 0 (some d)).1.led = false) ∧
      (∀ (st1 : State) (d1 : Downlink), 1 ≤ d1.bytes.length → d1.bytes.length ≤ 242 →
        d1.bytes.getD 0 0 = d.bytes.getD 0 0 →
        (downlink_handler st1 0 (some d1)).1.led = (downlink_handler st 0 (some d)).1.led) ∧
      (downlink_handler st 0 (some d)).2 =
        [Call.lorawan_receive d.bytes.length, Call.gpio_put (d.bytes.getD 0 0 != 0)] ∧
      (st.receive_buffer.length = 242 →
        (downlink_handler st 0 (some d)).1.receive_buffer.length = 242) := by
  have key : ∀ (s : State) (e : Downlink), 1 ≤ e.bytes.length →
      (downlink_handler s 0 (some e)).1.led = (e.bytes.getD 0 0 != 0) ∧
      (downlink_handler s 0 (some e)).2 =
        [Call.lorawan_receive e.bytes.length, Call.gpio_put (e.bytes.getD 0 0 != 0)] := by
    intro s e he
    obtain ⟨bytes, port⟩ := e
    cases bytes with
    | nil => simp at he
    | cons b rest =>
      have : (-1 : Int) < ((b :: rest).length : Int) := by omega
      simp only [downlink_handler, lorawan_receive, if_true, gt_iff_lt, this]
      simp
  refine ⟨(key st d hlen).1, ?_, ?_, ?_, (key st d hlen).2, ?_⟩
  rotate_right
  · intro hbuf
    have : (-1 : Int) < (d.bytes.length : Int) := by omega
    simp only [downlink_handler, lorawan_receive, if_true, gt_iff_lt, this,
      List.length_append, List.length_drop, hbuf]
    omega
  · intro h
    rw [(key st d hlen).1]
    simpa using h
  · intro h
    rw [(key st d hlen).1]
    simpa using h
  · intro st1 d1 h1 _ he
    rw [(key st d hlen).1, (key st1 d1 h1).1, he]

/-- The statement of C5 at the downlinks `01` and `00 FF` on different ports. -/
theorem downlink_first_byte_sets_led_witness :
    (downlink_handler initial_state 0 (some ⟨[0x01], 7⟩)).1.led = true ∧
      (downlink_handler ⟨0, List.replicate 242 1, 0, true⟩ 0 (some ⟨[0x00, 0xFF], 9⟩)).1.led
        = false :=
  ⟨(downlink_first_byte_sets_led initial_state ⟨[0x01], 7⟩ (by decide) (by decide)).2.1
      (by decide),
    (downlink_first_byte_sets_led ⟨0, List.replicate 242 1, 0, true⟩ ⟨[0x00, 0xFF], 9⟩
      (by decide) (by decide)).2.2.1 (by decide)⟩

/-- Claim C6. Whatever the sensor result, the result of the send, the result
of the service call and the answer of `lorawan_receive`, a loop iteration
completes and makes, among its uplink, downlink and sleep calls, exactly one
`lorawan_send_unconfirmed` of eleven bytes on port 2, then one
`lorawan_process_timeout_ms(30000)`, then one `lorawan_receive` if the service
call returned 0 and none otherwise, and last one `sleep_ms(300000)`. -/
theorem cycle_sends_waits_sleeps (st : State) (inp : CycleInput) :
    (cycle st inp).isSome = true ∧
      (cycle st inp).map (fun r => r.2.filter is_radio_or_sleep) =
        some ([Call.lorawan_send_unconfirmed
            (build_payload inp.adc_temperature_byte inp.temperature inp.humidity_v) 11 2,
          Call.lorawan_process_timeout_ms 30000] ++
          (if inp.process_ret = 0 then
            [Call.lorawan_receive
              (lorawan_receive inp.downlink st.receive_buffer st.receive_port).1]
           else []) ++
          [Call.sleep_ms 300000]) ∧
      (build_payload inp.adc_temperature_byte inp.temperature inp.humidity_v).length = 11 ∧
      (cycle st inp).map (fun r => r.2.getLast?) = some (some (Call.sleep_ms 300000)) ∧
      (cycle st inp).map (fun r => r.2.count (Call.sleep_ms 300000)) = some 1 := by
  refine ⟨by simp [cycle_eq], ?_, rfl, ?_, ?_⟩
  · rw [cycle_eq, downlink_handler_trace]
    by_cases h0 : inp.process_ret = 0
    · by_cases h1 : (lorawan_receive inp.downlink st.receive_buffer st.receive_port).1 > -1
      · simp [h0, h1]
        rfl
      · simp [h0, h1]
        rfl
    · simp [h0]
      rfl
  · rw [cycle_eq]
    simp only [Option.map_some']
    rw [List.getLast?_concat]
  · rw [cycle_eq, downlink_handler_trace]
    by_cases h0 : inp.process_ret = 0
    · by_cases h1 : (lorawan_receive inp.downlink st.receive_buffer st.receive_port).1 > -1
      · simp [h0, h1]
      · simp [h0, h1]
    · simp [h0]

/-- Claim C7. When the console connects at the poll with index `u`, the stack
initialises, and `lorawan_is_joined` answers false `n` times and then true,
`main` reaches its loop, and the calls before the first uplink are: the
set-up, `lorawan_init_otaa`, one `lorawan_join`, then `n` times a false
`lorawan_is_joined` followed by `lorawan_process_timeout_ms(1000)`, then the
true `lorawan_is_joined`, `dht_init` and the sensing calls of the first
iteration. There are `n` service calls of 1000 ms among them, and
`lorawan_join` occurs once in the whole trace, however many iterations run. -/
theorem main_join_sequence (n u fuel : Nat) (boot : BootInput) (inp : CycleInput)
    (rest : List CycleInput)
    (husb0 : ∀ k, k < u → boot.usb_connected k = false) (husb1 : boot.usb_connected u = true)
    (hinit : 0 ≤ boot.init_ret)
    (hj0 : ∀ k, k < n → boot.is_joined k = false) (hj1 : boot.is_joined n = true)
    (hfu : u < fuel) (hfn : n < fuel) :
    ∃ st tr, main fuel boot (inp :: rest) = Outcome.running st tr ∧
      tr.takeWhile (fun c => !is_send c) =
        Call.stdio_init_all :: usb_polls u ++
          [Call.tud_cdc_connected true, Call.gpio_init, Call.gpio_set_dir,
           Call.internal_temperature_init, Call.lorawan_init_otaa boot.init_ret,
           Call.lorawan_join] ++
          join_polls n ++
          [Call.lorawan_is_joined true, Call.dht_init, Call.internal_temperature_get,
           Call.dht_start_measurement, Call.dht_finish_measurement_blocking inp.dht_result] ∧
      (tr.takeWhile (fun c => !is_send c)).count (Call.lorawan_process_timeout_ms 1000) = n ∧
      tr.count Call.lorawan_join = 1 := by
  have hu := wait_usb_eq boot.usb_connected u fuel 0
    (fun i hi => by simpa using husb0 i hi) (by simpa using husb1) hfu
  have hn := wait_joined_eq boot.is_joined n fuel 0
    (fun i hi => by simpa using hj0 i hi) (by simpa using hj1) hfn
  obtain ⟨st1, tr, hrun, tail, htr⟩ := run_cycles_cons_trace initial_state inp rest
  obtain ⟨st2, tr2, hrun2, hnojoin, -⟩ := run_cycles_spec (inp :: rest) initial_state
  rw [hrun] at hrun2
  obtain ⟨-, rfl⟩ := Prod.mk.inj (Option.some.inj hrun2)
  have hmain : main fuel boot (inp :: rest) = Outcome.running st1
      ((Call.stdio_init_all :: usb_polls u ++
          [Call.tud_cdc_connected true, Call.gpio_init, Call.gpio_set_dir,
           Call.internal_temperature_init, Call.lorawan_init_otaa boot.init_ret,
           Call.lorawan_join] ++
          join_polls n ++
          [Call.lorawan_is_joined true, Call.dht_init, Call.internal_temperature_get,
           Call.dht_start_measurement, Call.dht_finish_measurement_blocking inp.dht_result]) ++
        Call.lorawan_send_unconfirmed
          (build_payload inp.adc_temperature_byte inp.temperature inp.humidity_v) 11 2 ::
          tail) := by
    have hlt : ¬ boot.init_ret < 0 := by omega
    simp only [main, hu, hn, hrun, hlt, if_false]
    rw [htr]
    simp only [List.append_assoc, List.cons_append, List.nil_append, List.singleton_append]
  have hpre : ∀ c ∈ (Call.stdio_init_all :: usb_polls u ++
          [Call.tud_cdc_connected true, Call.gpio_init, Call.gpio_set_dir,
           Call.internal_temperature_init, Call.lorawan_init_otaa boot.init_ret,
           Call.lorawan_join] ++
          join_polls n ++
          [Call.lorawan_is_joined true, Call.dht_init, Call.internal_temperature_get,
           Call.dht_start_measurement, Call.dht_finish_measurement_blocking inp.dht_result]),
      (!is_send c) = true := by
    intro c hc
    simp only [List.mem_append, List.mem_cons, List.mem_singleton, List.not_mem_nil,
      or_false] at hc
    rcases hc with ((hc | hc) | hc) | hc
    · rcases hc with rfl | hc
      · rfl
      · exact usb_polls_not_send u c hc
    · rcases hc with rfl | rfl | rfl | rfl | rfl | rfl <;> rfl
    · exact join_polls_not_send n c hc
    · rcases hc with rfl | rfl | rfl | rfl | rfl <;> rfl
  have htake : (((Call.stdio_init_all :: usb_polls u ++
          [Call.tud_cdc_connected true, Call.gpio_init, Call.gpio_set_dir,
           Call.internal_temperature_init, Call.lorawan_init_otaa boot.init_ret,
           Call.lorawan_join] ++
          join_polls n ++
          [Call.lorawan_is_joined true, Call.dht_init, Call.internal_temperature_get,
           Call.dht_start_measurement, Call.dht_finish_measurement_blocking inp.dht_result]) ++
        Call.lorawan_send_unconfirmed
          (build_payload inp.adc_temperature_byte inp.temperature inp.humidity_v) 11 2 ::
          tail).takeWhile (fun c => !is_send c)) =
      (Call.stdio_init_all :: usb_polls u ++
          [Call.tud_cdc_connected true, Call.gpio_init, Call.gpio_set_dir,
           Call.internal_temperature_init, Call.lorawan_init_otaa boot.init_ret,
           Call.lorawan_join] ++
          join_polls n ++
          [Call.lorawan_is_joined true, Call.dht_init, Call.internal_temperature_get,
           Call.dht_start_measurement, Call.dht_finish_measurement_blocking inp.dht_result]) := by
    rw [List.takeWhile_append_of_pos hpre]
    simp [is_send]
  refine ⟨st1, _, hmain, htake, ?_, ?_⟩
  · rw [htake]
    simp [List.count_append, List.count_cons, usb_polls_count_process, join_polls_count_process]
  · have htail : (Call.lorawan_send_unconfirmed
          (build_payload inp.adc_temperature_byte inp.temperature inp.humidity_v) 11 2 ::
          tail).count Call.lorawan_join = 0 := by
      rw [List.count_eq_zero]
      intro hmem
      exact hnojoin Call.lorawan_join (by rw [htr]; simp at hmem ⊢; exact hmem) rfl
    rw [List.count_append, htail]
    simp [List.count_append, List.count_cons, usb_polls_count_join, join_polls_count_join]

/-- The statement of C7 for a console that is connected at once and a join
that succeeds at the fourth poll (`n = 3`). -/
theorem main_join_sequence_witness :
    ∃ st tr, main 4 ⟨fun _ => true, 0, fun k => decide (3 ≤ k)⟩
        [⟨234, dht_result_t.DHT_RESULT_OK, 221, 110, 0, 1, none⟩] = Outcome.running st tr ∧
      tr.takeWhile (fun c => !is_send c) =
        Call.stdio_init_all :: usb_polls 0 ++
          [Call.tud_cdc_connected true, Call.gpio_init, Call.gpio_set_dir,
           Call.internal_temperature_init, Call.lorawan_init_otaa 0,
           Call.lorawan_join] ++
          join_polls 3 ++
          [Call.lorawan_is_joined true, Call.dht_init, Call.internal_temperature_get,
           Call.dht_start_measurement,
           Call.dht_finish_measurement_blocking dht_result_t.DHT_RESULT_OK] ∧
      (tr.takeWhile (fun c => !is_send c)).count (Call.lorawan_process_timeout_ms 1000) = 3 ∧
      tr.count Call.lorawan_join = 1 :=
  main_join_sequence 3 0 4 ⟨fun _ => true, 0, fun k => decide (3 ≤ k)⟩
    ⟨234, dht_result_t.DHT_RESULT_OK, 221, 110, 0, 1, none⟩ []
    (fun k hk => absurd hk (Nat.not_lt_zero k)) rfl (by decide)
    (fun k hk => by simp; omega) (by decide) (by decide) (by decide)

/-- Claim C8. Over exact rational arithmetic, `internal_temperature_get`
returns `27 - (V - 0.706) / 0.001721` with `V = r * 3.3 / 4095` for every raw
code `r` (in `0 .. 4095` and beyond: nothing is clamped and there is no error
result); it is the affine function `a - b * r` with
`a = 27 + 0.706 / 0.001721` and `b = 3.3 / (4095 * 0.001721) > 0`, strictly
decreasing in `r`, and the temperature is exactly 27 at the voltage 0.706. -/
theorem internal_temperature_get_affine :
    (∀ r : Nat, internal_temperature_get r =
      27 - ((r : ℚ) * 3.3 / 4095 - 0.706) / 0.001721) ∧
    (∀ r : Nat, internal_temperature_get r =
      (27 + 0.706 / 0.001721) - 3.3 / (4095 * 0.001721) * (r : ℚ)) ∧
    (0 : ℚ) < 3.3 / (4095 * 0.001721) ∧
    (∀ r1 r2 : Nat, r1 < r2 → internal_temperature_get r2 < internal_temperature_get r1) ∧
    adc_temperature_of_voltage 0.706 = 27 ∧
    (∀ r : Nat, adc_voltage_of_raw r = 0.706 → internal_temperature_get r = 27) := by
  refine ⟨?_, internal_temperature_get_eq, by norm_num, ?_, ?_, ?_⟩
  · intro r
    simp only [internal_temperature_get, adc_temperature_of_voltage, adc_voltage_of_raw]
    norm_num
  · intro r1 r2 h
    rw [internal_temperature_get_eq, internal_temperature_get_eq]
    have hq : (r1 : ℚ) < (r2 : ℚ) := by exact_mod_cast h
    have hb : (0 : ℚ) < 3.3 / (4095 * 0.001721) := by norm_num
    nlinarith [mul_lt_mul_of_pos_left hq hb]
  · simp only [adc_temperature_of_voltage]
    norm_num
  · intro r hr
    simp only [internal_temperature_get, hr, adc_temperature_of_voltage]
    norm_num

/-- The statement of C8 at the codes 876 and 877, on either side of 27 degrees. -/
theorem internal_temperature_get_affine_witness :
    internal_temperature_get 877 < internal_temperature_get 876 :=
  internal_temperature_get_affine.2.2.2.1 876 877 (by decide)

/-- Claim C9. The humidity value is not range-checked: for every scaled
humidity `h` in `0 .. 32767`, also above 255, byte 10 of the frame is
`h mod 256`, the record header before it is `03 68`, the frame has eleven
bytes, and its first ten bytes are the same for every humidity value. -/
theorem humidity_byte_truncates (a t : Int) (h : Nat) (hh : h ≤ 32767) :
    (build_payload a t h)[10]? = some (h % 256) ∧
      (build_payload a t h)[8]? = some 0x03 ∧
      (build_payload a t h)[9]? = some 0x68 ∧
      (build_payload a t h).length = 11 ∧
      (∀ h1 : Int, (build_payload a t h1).take 10 = (build_payload a t h).take 10) := by
  have p3 := parsed_humidity_of_nonneg 3 (by norm_num) h hh
  simp only [Nat.cast_ofNat] at p3
  refine ⟨?_, by simp [build_payload], by simp [build_payload], rfl, fun h1 => ?_⟩
  · simp [build_payload, p3]
  · simp [build_payload]

/-- The statement of C9 at `h = 300` (150 percent): byte 10 is `0x2C = 44`. -/
theorem humidity_byte_truncates_witness :
    (build_payload 234 221 (300 : Nat))[10]? = some (300 % 256) :=
  (humidity_byte_truncates 234 221 300 (by decide)).1

/-- Claim C10. Over exact rational arithmetic, for every raw code `r` in
`0 .. 4095` the scaled die temperature `10 * T(r)`, truncated toward zero,
lies between -14803 and 4373, hence in the range of `int16_t`, and it is
negative for every `r ≥ 935`. -/
theorem adc_temperature_scaled_range (r : Nat) (hr : r ≤ 4095) :
    -32768 ≤ adc_temperature_scaled r ∧ adc_temperature_scaled r ≤ 32767 ∧
      -14803 ≤ adc_temperature_scaled r ∧ adc_temperature_scaled r ≤ 4373 ∧
      (935 ≤ r → adc_temperature_scaled r < 0) := by
  have hq : (r : ℚ) ≤ 4095 := by exact_mod_cast hr
  have h0 : (0 : ℚ) ≤ (r : ℚ) := Nat.cast_nonneg r
  have hb := c_truncate_bounds (internal_temperature_get r * 10) (-14803) 4373
    (by norm_num) (by norm_num)
    (by rw [internal_temperature_get_eq]; norm_num; linarith)
    (by rw [internal_temperature_get_eq]; norm_num; linarith)
  unfold adc_temperature_scaled
  refine ⟨by omega, by omega, hb.1, hb.2, ?_⟩
  intro h935
  have hq2 : (935 : ℚ) ≤ (r : ℚ) := by exact_mod_cast h935
  apply c_truncate_neg
  rw [internal_temperature_get_eq]
  norm_num
  linarith

/-- The statement of C10 at `r = 935`. -/
theorem adc_temperature_scaled_range_witness :
    -32768 ≤ adc_temperature_scaled 935 ∧ adc_temperature_scaled 935 < 0 :=
  ⟨(adc_temperature_scaled_range 935 (by decide)).1,
    (adc_temperature_scaled_range 935 (by decide)).2.2.2.2 (by decide)⟩

end PicoSx1262
